import Mathlib

/-!
Verification of the automodel subsystem of the vlbi_stuff repository.

The definitions below are shallow embeddings of the Python code in
`src/vlbi_errors/automodel.py` and `src/vlbi_errors/spydiff.py`.
Model files are abstracted by their content of interest (a type parameter
`F`): a stopping criterion only ever inspects the list of files recorded
so far, so a criterion is a record of its mode tag, its accumulated file
list, and its `is_applicable` / `check_criterion` predicates over that
list.  Numeric values carried by the code's floating point numbers are
modelled by `ℚ` where decidability is wanted and by `ℝ` (with `Option ℝ`
standing for a float that may be NaN) where real functions (`sqrt`,
`sin`, `cos`, `arctan2`) are involved.
-/

/-- Embedding of `StoppingIterationsCriterion` (automodel.py:46-75):
a criterion holds its `mode` tag, the append-only list of recorded model
files, and its `is_applicable` / `check_criterion` logic as predicates
over the recorded file list (in the Python code both methods read
`self.files`).  The file type `F` abstracts a model file by the content
the criterion inspects. -/
structure Stopper (F : Type) where
  mode : String
  files : List F
  applicable : List F → Bool
  check : List F → Bool

/-- Embedding of `StoppingIterationsCriterion.do_stop` (automodel.py:61-72):
append the new file, then return `check_criterion()` if `is_applicable()`
holds on the updated file list, else `False`.  Returns the updated
criterion state together with the boolean verdict. -/
def do_stop {F : Type} (s : Stopper F) (f : F) : Stopper F × Bool :=
  let s' : Stopper F := { s with files := s.files ++ [f] }
  (s', if s'.applicable s'.files then s'.check s'.files else false)

/-- The boolean verdict of a `do_stop` call. -/
def doStopRes {F : Type} (s : Stopper F) (f : F) : Bool :=
  (do_stop s f).2

/-- In `AutoModeler.run` (automodel.py:921-932) a stopper receives a
`do_stop` call on an iteration exactly when its mode is one of
`"and"`, `"or"`, `"while"` (the three group comprehensions). -/
def isGrouped {F : Type} (s : Stopper F) : Bool :=
  s.mode == "and" || s.mode == "or" || s.mode == "while"

/-- State update of the whole stopper list on one loop iteration of
`AutoModeler.run`: every stopper belonging to one of the three mode
groups records the new model file via `do_stop`. -/
def stepStoppers {F : Type} (ss : List (Stopper F)) (f : F) : List (Stopper F) :=
  ss.map (fun s => if isGrouped s then (do_stop s f).1 else s)

/-- Verdict `np.any(decisions_while)` of automodel.py:931-933: the loop
is forced to `continue` when some WHILE-mode stopper's `do_stop`
returned `False` (the code negates each WHILE verdict before the `any`). -/
def whileContinue {F : Type} (ss : List (Stopper F)) (f : F) : Bool :=
  (ss.filter (fun s => s.mode == "while")).any (fun s => !(doStopRes s f))

/-- Verdict `do_stop = np.alltrue(decisions_and) or np.any(decisions_or)`
(automodel.py:936): the AND/OR combined stop verdict of one iteration. -/
def andOrStop {F : Type} (ss : List (Stopper F)) (f : F) : Bool :=
  ((ss.filter (fun s => s.mode == "and")).all (fun s => doStopRes s f)) ||
    ((ss.filter (fun s => s.mode == "or")).any (fun s => doStopRes s f))

/-- The loop of `AutoModeler.run` breaks on an iteration exactly when the
WHILE group does not force continuation and the AND/OR verdict says stop
(automodel.py:933-956). -/
def breaksNow {F : Type} (ss : List (Stopper F)) (f : F) : Bool :=
  !(whileContinue ss f) && andOrStop ss f

/-- Stopper states before iteration `k` (0-based) of the `run` loop,
given the initial stopper list and the stream of model files produced by
`do_iteration` (`files k` is the file of iteration `k`). -/
def statesAfter {F : Type} (ss : List (Stopper F)) (files : ℕ → F) : ℕ → List (Stopper F)
  | 0 => ss
  | k + 1 => stepStoppers (statesAfter ss files k) (files k)

/-- Embedding of `NLastJustStop` (automodel.py:391-400): inherits
`NLast.is_applicable` (`len(self.files) > self.n_check`, automodel.py:321-325)
with `n_check = n`, and `check_criterion` is constantly `True`.  The
constructor's default mode is `"or"` (automodel.py:395). -/
def nLastJustStop {F : Type} (n : ℕ) (mode : String := "or") : Stopper F :=
  { mode := mode
    files := []
    applicable := fun l => decide (n < l.length)
    check := fun _ => true }

/-- The stopper list assembled at the top of `AutoModeler.run`
(automodel.py:899-901): the caller's stoppers plus an appended
`NLastJustStop(self.n_comps_terminate)` built with its default mode. -/
def runStoppers {F : Type} (stoppers : List (Stopper F)) (n_comps_terminate : ℕ) :
    List (Stopper F) :=
  stoppers ++ [nLastJustStop n_comps_terminate]

/-- Embedding of `AddedNegativeFluxComponentStopping` (automodel.py:107-119)
over files abstracted by the flux list of their components:
`is_applicable` is truthiness of `self.files` (non-empty), and
`check_criterion` is `np.any([comp.p[0] < 0.0 for comp in comps])` on the
last recorded file. -/
def addedNegativeFluxStopping (mode : String := "or") : Stopper (List ℚ) :=
  { mode := mode
    files := []
    applicable := fun l => !l.isEmpty
    check := fun l => (l.getLastD []).any (fun flux => decide (flux < 0)) }

/-- The content of a model file as seen by the windowed core-convergence
criteria: the flux `p[0]` and size `p[3]` of the first (core) component
returned by `import_difmap_model`. -/
structure CoreParams where
  flux : ℚ
  size : ℚ
deriving DecidableEq

/-- Embedding of `NLast.is_applicable` (automodel.py:321-325):
`len(self.files) > self.n_check`. -/
def nLastIsApplicable {α : Type} (n_check : ℕ) (files : List α) : Bool :=
  decide (n_check < files.length)

/-- Embedding of `NLastDifferesFromLast.check_criterion` (automodel.py:341-356):
take the slice `self.files[-self.n_check-1 : -1]` (the `n_check` files
immediately preceding the newest one), read the core flux and size of
each, and compare them all against the last file of that slice, with
flux threshold `max(self.delta_flux_min, last_flux*self.frac_flux_min)`;
return true when all flux deltas are below the flux threshold or all
size deltas are below `self.delta_size_min`. -/
def nLastDifferesFromLastCheck (n_check : ℕ)
    (frac_flux_min delta_flux_min delta_size_min : ℚ)
    (files : List CoreParams) : Bool :=
  let window := (files.drop (files.length - (n_check + 1))).dropLast
  let last_comp := window.getLastD ⟨0, 0⟩
  let flux_min := max delta_flux_min (last_comp.flux * frac_flux_min)
  (window.all (fun c => decide (|c.flux - last_comp.flux| < flux_min))) ||
    (window.all (fun c => decide (|c.size - last_comp.size| < delta_size_min)))

/-- The full `NLastDifferesFromLast` criterion (automodel.py:328-356) as a
stopper: its constructor passes only `n_check` to `NLast`, whose default
mode is `"and"` (automodel.py:317). -/
def nLastDifferesFromLast (n_check : ℕ)
    (frac_flux_min delta_flux_min delta_size_min : ℚ) : Stopper CoreParams :=
  { mode := "and"
    files := []
    applicable := nLastIsApplicable n_check
    check := nLastDifferesFromLastCheck n_check frac_flux_min delta_flux_min delta_size_min }

/-- Modelled from the spec: the windowed-convergence verdict as the spec
sentence describes it — "compares the core component's flux/size across
the last `n_check` iterations ... all against the *latest* value", with
flux threshold the larger of the absolute floor and the fraction of the
current (latest) flux. -/
def nLastDifferesFromLastCheckSpec (n_check : ℕ)
    (frac_flux_min delta_flux_min delta_size_min : ℚ)
    (files : List CoreParams) : Bool :=
  let window := files.drop (files.length - n_check)
  let latest := files.getLastD ⟨0, 0⟩
  let flux_min := max delta_flux_min (latest.flux * frac_flux_min)
  (window.all (fun c => decide (|c.flux - latest.flux| < flux_min))) ||
    (window.all (fun c => decide (|c.size - latest.size| < delta_size_min)))

/-- Embedding of `ndimage.binary_opening(a, structure=np.ones(2))` on a boolean list:
the morphological opening with a two-element structuring window keeps
position `i` exactly when `a[i]` holds together with one of its
neighbours (erosion by the window followed by dilation, out-of-range
treated as false). -/
def openingOnes2 (a : List Bool) : List Bool :=
  (List.range a.length).map (fun i =>
    a.getD i false && ((a.getD (i + 1) false) || (decide (i ≠ 0) && a.getD (i - 1) false)))

/-- The selection tail shared by both selectors (automodel.py:438-447 and
automodel.py:473-482): if the convergence mask `a` has exactly one true
entry, return its index; otherwise return the index of the first true
entry of the opened mask, or index 0 when there is none (the
`ValueError` fallback of `.index(1)`). -/
def selectFromMask (a : List Bool) : ℕ :=
  if a.count true = 1 then a.indexOf true
  else if (openingOnes2 a).contains true then (openingOnes2 a).indexOf true
  else 0

/-- The convergence mask of `FluxBasedModelSelector.select`
(automodel.py:433-437): `(abs(fluxes_inv - fluxes_inv[0]) < flux_min)[::-1]`
with `fluxes_inv = fluxes[::-1]` and
`flux_min = min(self.delta_flux, self.frac_flux*last_flux)`. -/
def fluxConvMask (frac_flux delta_flux : ℚ) (fluxes : List ℚ) : List Bool :=
  let last_flux := fluxes.getLastD 0
  let fluxes_inv := fluxes.reverse
  let flux_min := min delta_flux (frac_flux * last_flux)
  (fluxes_inv.map (fun f => decide (|f - fluxes_inv.headD 0| < flux_min))).reverse

/-- Embedding of `FluxBasedModelSelector.select` (automodel.py:427-447) after the core
fluxes have been extracted from the iteration-ordered files: build the
convergence mask and run the shared selection tail. -/
def fluxBasedSelect (frac_flux delta_flux : ℚ) (fluxes : List ℚ) : ℕ :=
  selectFromMask (fluxConvMask frac_flux delta_flux fluxes)

/-- The convergence mask of `SizeBasedModelSelector.select`
(automodel.py:463-472): when the last core size is below
`small_size_of_the_core` the mask compares fractional changes
`abs((sizes_inv - sizes_inv[0]) / sizes_inv[0]) < frac_size`, otherwise
absolute changes against `size_min = min(delta_size, frac_size*last_size)`. -/
def sizeConvMask (frac_size delta_size small_size_of_the_core : ℚ)
    (sizes : List ℚ) : List Bool :=
  let last_size := sizes.getLastD 0
  let sizes_inv := sizes.reverse
  let size_min := min delta_size (frac_size * last_size)
  if last_size < small_size_of_the_core then
    (sizes_inv.map (fun s =>
      decide (|(s - sizes_inv.headD 0) / sizes_inv.headD 0| < frac_size))).reverse
  else
    (sizes_inv.map (fun s => decide (|s - sizes_inv.headD 0| < size_min))).reverse

/-- Embedding of `SizeBasedModelSelector.select` (automodel.py:457-482) after the core
sizes have been extracted from the iteration-ordered files. -/
def sizeBasedSelect (frac_size delta_size small_size_of_the_core : ℚ)
    (sizes : List ℚ) : ℕ :=
  selectFromMask (sizeConvMask frac_size delta_size small_size_of_the_core sizes)

/-- Modelled from the spec: the selection tail as the spec sentences
describe it — always "apply a morphological opening ... to the boolean
convergence mask before locating the first true entry", falling back to
index 0 when the smoothed mask has no true entry. -/
def selectFromMaskSpec (a : List Bool) : ℕ :=
  if (openingOnes2 a).contains true then (openingOnes2 a).indexOf true else 0

/-- Modelled from the spec: `FluxBasedModelSelector.select` as the spec
describes it (opening always applied). -/
def fluxBasedSelectSpec (frac_flux delta_flux : ℚ) (fluxes : List ℚ) : ℕ :=
  selectFromMaskSpec (fluxConvMask frac_flux delta_flux fluxes)

/-- Modelled from the spec: `SizeBasedModelSelector.select` as the spec
describes it (opening always applied). -/
def sizeBasedSelectSpec (frac_size delta_size small_size_of_the_core : ℚ)
    (sizes : List ℚ) : ℕ :=
  selectFromMaskSpec (sizeConvMask frac_size delta_size small_size_of_the_core sizes)

/-- The backward filter walk of the `__main__` driver
(automodel.py:1172-1176):

    for fn in files[::-1]:
        if np.any([flt.do_filter(fn) for flt in filters]):
            id_best -= 1
        else:
            break

The function takes the already reversed candidate list and the running
index and returns the final index.  A model file is abstracted by
whatever content the registered filters inspect (type `M`). -/
def filterWalk {M : Type} (filters : List (M → Bool)) :
    List M → ℤ → ℤ
  | [], id_best => id_best
  | fn :: rest, id_best =>
    if filters.any (fun flt => flt fn) then filterWalk filters rest (id_best - 1)
    else id_best

/-- Embedding of `NegativeFluxComponentModelFilter.do_filter` (automodel.py:534-546)
over a model file abstracted by the flux list of its components:
reject when any component flux is negative. -/
def negativeFluxModelFilter : List ℚ → Bool :=
  fun comps => comps.any (fun flux => decide (flux < 0))

/-- A difmap model component.  Modelled from the spec: `components.py` is
not among the sources; per spec §3/§6 a component is a parameter vector —
delta: `(flux, x, y)`; circular gaussian: `(flux, x, y, size)`;
elliptical gaussian: `(flux, x, y, size, axial ratio e, position angle
bpa)` — matching `comp.p` as indexed throughout automodel.py and
spydiff.py. -/
inductive DifmapComponent : Type
  | delta (flux x y : ℝ)
  | cg (flux x y bmaj : ℝ)
  | eg (flux x y bmaj e bpa : ℝ)

/-- The `(flux, x, y, size)` quadruple of a component (`p[0]`, `p[1]`,
`p[2]`, `p[3]`; a delta component has no size parameter, rendered 0). -/
def componentParams (c : DifmapComponent) : ℝ × ℝ × ℝ × ℝ :=
  match c with
  | .delta flux x y => (flux, x, y, 0)
  | .cg flux x y bmaj => (flux, x, y, bmaj)
  | .eg flux x y bmaj _ _ => (flux, x, y, bmaj)

/-- Conversion factor `degree_to_rad` imported from utils.py (not among the sources).
Modelled from the spec: the degrees-to-radians conversion factor used by
the polar/cartesian conversions of spydiff.py. -/
noncomputable def degree_to_rad : ℝ := Real.pi / 180

/-- Function `np.arctan2 y x` as the argument of the complex number `x + y*I`. -/
noncomputable def arctan2 (y x : ℝ) : ℝ := Complex.arg ⟨x, y⟩

/-- The abstract content of one record of a difmap model file: the
numeric value of each of the six component fields together with its
"free to vary" flag (the trailing `v` marker), plus the type code.  The
frequency and spectral-index fields are written by the exporter and
ignored by the importer, so they are not represented.  Decimal
rendering of the numbers is abstracted away (values are carried
exactly); the claim's 1e-6 tolerance covers that textual precision. -/
structure ModelLine where
  flux : ℝ
  fluxFree : Bool
  r : ℝ
  rFree : Bool
  theta : ℝ
  thetaFree : Bool
  major : ℝ
  majorFree : Bool
  axial : ℝ
  axialFree : Bool
  phi : ℝ
  phiFree : Bool
  typ : ℕ

/-- One line written by `export_difmap_model` (spydiff.py:224-269):
`r = np.hypot(x, y)`, `theta = np.arctan2(-x, -y)` converted to degrees;
flux, r and theta are always free; a circular gaussian (`comp.size == 4`)
gets literal axial ratio 1 and phi 0 (not free) with free major axis; an
elliptical gaussian (`comp.size == 6`) gets free axial ratio and free
`phi = (bpa - pi/2)/degree_to_rad`; a delta gets fixed major 0. -/
noncomputable def exportComponentLine (c : DifmapComponent) : ModelLine :=
  match c with
  | .cg flux x y bmaj =>
    { flux := flux, fluxFree := true
      r := Real.sqrt (x ^ 2 + y ^ 2), rFree := true
      theta := arctan2 (-x) (-y) / degree_to_rad, thetaFree := true
      major := bmaj, majorFree := true
      axial := 1, axialFree := false
      phi := 0, phiFree := false
      typ := 1 }
  | .eg flux x y bmaj e bpa =>
    { flux := flux, fluxFree := true
      r := Real.sqrt (x ^ 2 + y ^ 2), rFree := true
      theta := arctan2 (-x) (-y) / degree_to_rad, thetaFree := true
      major := bmaj, majorFree := true
      axial := e, axialFree := true
      phi := (bpa - Real.pi / 2) / degree_to_rad, phiFree := true
      typ := 1 }
  | .delta flux x y =>
    { flux := flux, fluxFree := true
      r := Real.sqrt (x ^ 2 + y ^ 2), rFree := true
      theta := arctan2 (-x) (-y) / degree_to_rad, thetaFree := true
      major := 0, majorFree := false
      axial := 1, axialFree := false
      phi := 0, phiFree := false
      typ := 0 }

/-- Embedding of `export_difmap_model` (spydiff.py:224-269): one record
per component. -/
noncomputable def export_difmap_model (comps : List DifmapComponent) : List ModelLine :=
  comps.map exportComponentLine

/-- Parsing of one full record by `import_difmap_model`
(spydiff.py:159-210): `x = -r*sin(deg2rad(theta))`,
`y = -r*cos(deg2rad(theta))`; type 0 gives a delta; type 1 gives a
circular gaussian when the axial-ratio field reads 1 and an elliptical
gaussian (with `bpa = deg2rad(phi) + pi/2`) otherwise; any other type
code raises `NotImplementedError` (`none` here).  The source tests the
axial field as `float(axial[:-1]) == 1` — the text with its last
character stripped — which on every exporter-produced line equals the
carried value (`v`-suffixed fields strip to their exact text, and the
fixed circular-gaussian literal `1.00000` still reads 1). -/
noncomputable def importLine (l : ModelLine) : Option DifmapComponent :=
  let x := -l.r * Real.sin (degree_to_rad * l.theta)
  let y := -l.r * Real.cos (degree_to_rad * l.theta)
  if l.typ = 0 then some (.delta l.flux x y)
  else if l.typ = 1 then
    if l.axial = 1 then some (.cg l.flux x y l.major)
    else some (.eg l.flux x y l.major l.axial (degree_to_rad * l.phi + Real.pi / 2))
  else none

/-- Embedding of `import_difmap_model` (spydiff.py:140-211) over the abstract records:
parse every line into a component (failing if any line has an
unsupported type code). -/
noncomputable def import_difmap_model (lines : List ModelLine) : Option (List DifmapComponent) :=
  lines.mapM importLine

/-- Model of `np.sqrt` on a float that is known not NaN: the result is NaN exactly
when the argument is negative (`none` encodes NaN). -/
noncomputable def npSqrt (x : ℝ) : Option ℝ :=
  if x < 0 then none else some (Real.sqrt x)

/-- The size post-processing of `AutoModeler.suggest_component`
(automodel.py:768-779): starting from the Gaussian-moment estimate
`bmaj` (possibly NaN, encoded `none`), substitute `bmaj_nan` if it is
NaN, otherwise scale by `mas_in_pix` and subtract the beam in
quadrature, `sqrt(bmaj**2 - beam**2)`; then substitute `bmaj_nan` again
if the result is NaN. -/
noncomputable def suggestComponentSize (bmaj0 : Option ℝ)
    (mas_in_pix beam bmaj_nan : ℝ) : Option ℝ :=
  let b1 : Option ℝ :=
    match bmaj0 with
    | none => some bmaj_nan
    | some b => npSqrt ((b * mas_in_pix) ^ 2 - beam ^ 2)
  match b1 with
  | none => some bmaj_nan
  | some b => some b

/-- C8: for every stopping criterion and every call of `do_stop` with a
new file, if the criterion is not applicable after recording the file
then `do_stop` returns false — whatever `check_criterion` would have
said — and the file is nevertheless appended to the criterion's recorded
file list, so it counts toward future applicability. -/
theorem do_stop_inapplicable_no_stop_still_records
    {F : Type} (s : Stopper F) (f : F)
    (h : s.applicable (s.files ++ [f]) = false) :
    (do_stop s f).2 = false ∧ (do_stop s f).1.files = s.files ++ [f] :=
  ⟨by simp [do_stop, h], rfl⟩

/-- Witness for C8 at a concrete inapplicable criterion:
`NLastJustStop(5)` receiving its first file. -/
theorem do_stop_inapplicable_no_stop_still_records_witness :
    (nLastJustStop (F := ℕ) 5).applicable ((nLastJustStop (F := ℕ) 5).files ++ [0]) = false ∧
    (do_stop (nLastJustStop (F := ℕ) 5) 0).2 = false ∧
    (do_stop (nLastJustStop (F := ℕ) 5) 0).1.files = (nLastJustStop (F := ℕ) 5).files ++ [0] :=
  ⟨by decide, do_stop_inapplicable_no_stop_still_records _ _ (by decide)⟩

/-- C9: the suggested component size is never NaN: a NaN Gaussian-moment
estimate is replaced by `bmaj_nan`, a NaN from the beam quadrature
subtraction `sqrt(bmaj**2 - beam**2)` (beam-dominated source) is also
replaced by `bmaj_nan`, and in every case `AutoModeler.suggest_component`
ends up with a non-NaN size. -/
theorem suggest_component_size_never_nan
    (bmaj0 : Option ℝ) (mas_in_pix beam bmaj_nan : ℝ) :
    (suggestComponentSize bmaj0 mas_in_pix beam bmaj_nan).isSome = true ∧
    suggestComponentSize none mas_in_pix beam bmaj_nan = some bmaj_nan ∧
    ∀ b : ℝ, (b * mas_in_pix) ^ 2 - beam ^ 2 < 0 →
      suggestComponentSize (some b) mas_in_pix beam bmaj_nan = some bmaj_nan := by
  refine ⟨?_, rfl, ?_⟩
  · cases bmaj0 with
    | none => rfl
    | some b =>
      by_cases hb : (b * mas_in_pix) ^ 2 - beam ^ 2 < 0
      · simp [suggestComponentSize, npSqrt, hb]
      · simp [suggestComponentSize, npSqrt, hb]
  · intro b hb
    simp [suggestComponentSize, npSqrt, hb]

/-- Witness for C9 at a concrete beam-dominated input: estimate 1,
pixel scale 1, beam 2, fallback 1/10. -/
theorem suggest_component_size_never_nan_witness :
    ((1 : ℝ) * 1) ^ 2 - (2 : ℝ) ^ 2 < 0 ∧
    suggestComponentSize (some 1) 1 2 (1 / 10) = some (1 / 10) :=
  ⟨by norm_num, (suggest_component_size_never_nan (some 1) 1 2 (1 / 10)).2.2 1 (by norm_num)⟩

/-- C1 counterexample: one registered WHILE-mode criterion
(`NLastJustStop(0, mode="while")`) has `do_stop` return true on the
first produced model file — so every WHILE-mode criterion returned
true — yet the `run` loop stops on that very iteration (the empty AND
group is vacuously true): a true WHILE verdict does not force the loop
to continue. -/
theorem run_while_true_does_not_force_continue :
    ((statesAfter (runStoppers [nLastJustStop 0 "while"] 50) (fun _ => 0) 0).filter
        (fun s => s.mode == "while")).length = 1 ∧
    ((statesAfter (runStoppers [nLastJustStop 0 "while"] 50) (fun _ => 0) 0).filter
        (fun s => s.mode == "while")).all (fun s => doStopRes s ((fun _ : ℕ => (0 : ℕ)) 0)) = true ∧
    breaksNow (statesAfter (runStoppers [nLastJustStop 0 "while"] 50) (fun _ => 0) 0)
      ((fun _ : ℕ => (0 : ℕ)) 0) = true :=
  ⟨by decide, by decide, by decide⟩

/-- C1 (amended): on every iteration of the `run` loop, if at least one
registered WHILE-mode criterion's `do_stop` returns false on the newly
produced model file, the loop continues to the next iteration regardless
of the AND-mode and OR-mode verdicts of that iteration; the AND/OR stop
decision is consulted only when every WHILE-mode criterion's `do_stop`
returned true. -/
theorem run_while_false_forces_continue
    {F : Type} (ss : List (Stopper F)) (files : ℕ → F) (k : ℕ) (s : Stopper F)
    (hmem : s ∈ statesAfter ss files k) (hmode : s.mode = "while")
    (hfalse : doStopRes s (files k) = false) :
    breaksNow (statesAfter ss files k) (files k) = false := by
  have hw : whileContinue (statesAfter ss files k) (files k) = true := by
    unfold whileContinue
    rw [List.any_eq_true]
    exact ⟨s, List.mem_filter.2 ⟨hmem, by simp [hmode]⟩, by simp [hfalse]⟩
  simp [breaksNow, hw]

/-- Witness for the amended C1: a WHILE-mode `NLastJustStop(5)` is
inapplicable on the first file, its `do_stop` is false, and the loop
does not break. -/
theorem run_while_false_forces_continue_witness :
    doStopRes (nLastJustStop (F := ℕ) 5 "while") ((fun _ : ℕ => (0 : ℕ)) 0) = false ∧
    breaksNow (statesAfter [nLastJustStop (F := ℕ) 5 "while"] (fun _ => 0) 0)
      ((fun _ : ℕ => (0 : ℕ)) 0) = false :=
  ⟨by decide,
    run_while_false_forces_continue [nLastJustStop 5 "while"] (fun _ => 0) 0
      (nLastJustStop 5 "while") (List.mem_singleton.mpr rfl) rfl (by decide)⟩

/-- C2 counterexample: with a registered AND-mode criterion whose
`do_stop` returns false (`AddedNegativeFluxComponentStopping(mode="and")`
on a file whose single component has positive flux) and an OR-mode
criterion returning true (`NLastJustStop(0)`), the `run` loop stops on
that very iteration: a false AND-mode criterion does not prevent the
loop from stopping. -/
theorem run_stops_despite_false_and_criterion :
    doStopRes (addedNegativeFluxStopping "and") ((fun _ : ℕ => [(1 : ℚ)]) 0) = false ∧
    breaksNow (statesAfter (runStoppers [addedNegativeFluxStopping "and", nLastJustStop 0] 50)
        (fun _ => [(1 : ℚ)]) 0) ((fun _ : ℕ => [(1 : ℚ)]) 0) = true :=
  ⟨by decide, by decide⟩

/-- C2 (amended): the `run` loop stops on an iteration only when every
AND-mode criterion's `do_stop` returned true on it or at least one
OR-mode criterion's `do_stop` returned true on it; an iteration on which
some AND-mode criterion is inapplicable or false can therefore still
stop, but only through the OR group. -/
theorem run_stop_needs_and_all_or_or_any
    {F : Type} (ss : List (Stopper F)) (files : ℕ → F) (k : ℕ)
    (hstop : breaksNow (statesAfter ss files k) (files k) = true) :
    ((statesAfter ss files k).filter (fun s => s.mode == "and")).all
        (fun s => doStopRes s (files k)) = true ∨
    ((statesAfter ss files k).filter (fun s => s.mode == "or")).any
        (fun s => doStopRes s (files k)) = true := by
  have h := hstop
  simp only [breaksNow, Bool.and_eq_true, andOrStop, Bool.or_eq_true] at h
  exact h.2

/-- Witness for the amended C2 at the concrete stopping iteration used
for the counterexample. -/
theorem run_stop_needs_and_all_or_or_any_witness :
    breaksNow (statesAfter (runStoppers [addedNegativeFluxStopping "and", nLastJustStop 0] 50)
        (fun _ => [(1 : ℚ)]) 0) ((fun _ : ℕ => [(1 : ℚ)]) 0) = true ∧
    (((statesAfter (runStoppers [addedNegativeFluxStopping "and", nLastJustStop 0] 50)
          (fun _ => [(1 : ℚ)]) 0).filter (fun s => s.mode == "and")).all
        (fun s => doStopRes s ((fun _ : ℕ => [(1 : ℚ)]) 0)) = true ∨
      ((statesAfter (runStoppers [addedNegativeFluxStopping "and", nLastJustStop 0] 50)
          (fun _ => [(1 : ℚ)]) 0).filter (fun s => s.mode == "or")).any
        (fun s => doStopRes s ((fun _ : ℕ => [(1 : ℚ)]) 0)) = true) :=
  ⟨by decide, run_stop_needs_and_all_or_or_any _ _ _ (by decide)⟩

/-- Helper: one loop iteration preserves the list of stopper modes. -/
lemma stepStoppers_modes {F : Type} (ss : List (Stopper F)) (f : F) :
    (stepStoppers ss f).map Stopper.mode = ss.map Stopper.mode := by
  induction ss with
  | nil => rfl
  | cons s rest ih =>
    have hmode : (if isGrouped s then (do_stop s f).1 else s).mode = s.mode := by
      split <;> rfl
    simpa [stepStoppers, hmode] using ih

/-- Helper: the whole `run` trace preserves the list of stopper modes. -/
lemma statesAfter_modes {F : Type} (ss : List (Stopper F)) (files : ℕ → F) (k : ℕ) :
    (statesAfter ss files k).map Stopper.mode = ss.map Stopper.mode := by
  induction k with
  | zero => rfl
  | succ k ih => rw [statesAfter, stepStoppers_modes, ih]

/-- Helper: the trace of a concatenated stopper list is the concatenation
of the traces. -/
lemma statesAfter_append {F : Type} (a b : List (Stopper F)) (files : ℕ → F) (k : ℕ) :
    statesAfter (a ++ b) files k = statesAfter a files k ++ statesAfter b files k := by
  induction k with
  | zero => rfl
  | succ k ih => simp only [statesAfter, ih, stepStoppers, List.map_append]

/-- Helper: after `k` iterations an appended default-mode `NLastJustStop`
has recorded exactly the `k` files produced so far. -/
lemma statesAfter_nLastJustStop {F : Type} (n : ℕ) (files : ℕ → F) (k : ℕ) :
    statesAfter [nLastJustStop n] files k =
      [{ nLastJustStop n with files := (List.range k).map files }] := by
  induction k with
  | zero => simp [statesAfter, nLastJustStop]
  | succ k ih =>
    have hg : isGrouped ({ nLastJustStop (F := F) n with files := (List.range k).map files }) = true := rfl
    simp only [statesAfter, ih, stepStoppers, List.map_cons, List.map_nil, hg, if_true]
    simp [do_stop, List.range_succ]

/-- C10: if the caller registers no AND-mode criterion (the cap appended
by `run` keeps its default mode `"or"`), then on any iteration of the
`run` loop on which the WHILE group does not force continuation the
combined decision is stop — `np.alltrue` of the empty AND decision list
is vacuously true — so the loop halts even when every OR-mode criterion
returned false. -/
theorem run_empty_and_group_stops
    {F : Type} (stoppers : List (Stopper F)) (n : ℕ) (files : ℕ → F) (k : ℕ)
    (hand : ∀ s ∈ stoppers, s.mode ≠ "and")
    (hwhile : whileContinue (statesAfter (runStoppers stoppers n) files k) (files k) = false) :
    breaksNow (statesAfter (runStoppers stoppers n) files k) (files k) = true := by
  have hmodes := statesAfter_modes (runStoppers stoppers n) files k
  have hfilter : (statesAfter (runStoppers stoppers n) files k).filter
      (fun s => s.mode == "and") = [] := by
    rw [List.filter_eq_nil_iff]
    intro s hs
    have hmem : s.mode ∈ (statesAfter (runStoppers stoppers n) files k).map Stopper.mode :=
      List.mem_map_of_mem _ hs
    rw [hmodes] at hmem
    simp only [runStoppers, List.map_append, List.mem_append] at hmem
    rcases hmem with hmem | hmem
    · obtain ⟨t, ht, hmode⟩ := List.mem_map.1 hmem
      simp only [beq_iff_eq]
      rw [← hmode]
      exact hand t ht
    · simp only [List.map_cons, List.map_nil, List.mem_singleton] at hmem
      rw [hmem]
      simp [nLastJustStop]
  simp [breaksNow, hwhile, andOrStop, hfilter]

/-- Witness for C10: one OR-mode criterion that returns false
(`AddedNegativeFluxComponentStopping()` on a positive-flux file) plus
the appended OR-mode cap (inapplicable, hence false): the loop stops on
the first iteration although every OR verdict is false. -/
theorem run_empty_and_group_stops_witness :
    ((statesAfter (runStoppers [addedNegativeFluxStopping] 5) (fun _ => [(1 : ℚ)]) 0).filter
        (fun s => s.mode == "or")).any
      (fun s => doStopRes s ((fun _ : ℕ => [(1 : ℚ)]) 0)) = false ∧
    breaksNow (statesAfter (runStoppers [addedNegativeFluxStopping] 5) (fun _ => [(1 : ℚ)]) 0)
      ((fun _ : ℕ => [(1 : ℚ)]) 0) = true :=
  ⟨by decide,
    run_empty_and_group_stops [addedNegativeFluxStopping] 5 (fun _ => [(1 : ℚ)]) 0
      (by intro s hs; rw [List.mem_singleton] at hs; subst hs; decide) (by decide)⟩

/-- C4 counterexample: `run` appends `NLastJustStop(n_comps_terminate)`
with its default mode `"or"`, not `"and"`; moreover with
`n_comps_terminate = 1` and a single always-false AND-mode criterion the
loop does not stop on iteration 1 (0-based index 0) and stops only on
iteration 2 (index 1), so the cap neither has mode AND nor guarantees a
stop at or before `n_comps_terminate` iterations. -/
theorem run_cap_is_or_mode_and_stops_late :
    (runStoppers [addedNegativeFluxStopping "and"] 1).map Stopper.mode = ["and", "or"] ∧
    breaksNow (statesAfter (runStoppers [addedNegativeFluxStopping "and"] 1)
        (fun _ => [(1 : ℚ)]) 0) ((fun _ : ℕ => [(1 : ℚ)]) 0) = false ∧
    breaksNow (statesAfter (runStoppers [addedNegativeFluxStopping "and"] 1)
        (fun _ => [(1 : ℚ)]) 1) ((fun _ : ℕ => [(1 : ℚ)]) 1) = true :=
  ⟨by decide, by decide, by decide⟩

/-- C4 (amended): `AutoModeler.run` always appends
`NLastJustStop(n_comps_terminate)` with its default mode `"or"`; its
`check_criterion` is constantly true and its `do_stop` becomes true once
more than `n_comps_terminate` files are recorded, so on any iteration of
0-based index at least `n_comps_terminate` (iteration number
`n_comps_terminate + 1` or later) on which the WHILE group does not
force continuation, the loop stops; as an OR-group member it never
blocks other criteria from stopping earlier. -/
theorem run_cap_stops_after_n_comps_terminate
    {F : Type} (stoppers : List (Stopper F)) (n : ℕ) (files : ℕ → F) (k : ℕ)
    (hk : n ≤ k)
    (hwhile : whileContinue (statesAfter (runStoppers stoppers n) files k) (files k) = false) :
    ((runStoppers stoppers n).map Stopper.mode).getLast? = some "or" ∧
    breaksNow (statesAfter (runStoppers stoppers n) files k) (files k) = true := by
  constructor
  · simp [runStoppers, nLastJustStop]
  · have hres : doStopRes { nLastJustStop (F := F) n with
        files := (List.range k).map files } (files k) = true := by
      have hlen : n < k + 1 := Nat.lt_succ_of_le hk
      simp [doStopRes, do_stop, nLastJustStop, hlen]
    have hcapmem : ({ nLastJustStop (F := F) n with files := (List.range k).map files } : Stopper F) ∈
        (statesAfter (runStoppers stoppers n) files k).filter (fun s => s.mode == "or") := by
      rw [List.mem_filter]
      constructor
      · show _ ∈ statesAfter (stoppers ++ [nLastJustStop n]) files k
        rw [statesAfter_append, statesAfter_nLastJustStop]
        exact List.mem_append_right _ (List.mem_singleton.mpr rfl)
      · rfl
    have hor : ((statesAfter (runStoppers stoppers n) files k).filter
        (fun s => s.mode == "or")).any (fun s => doStopRes s (files k)) = true :=
      List.any_eq_true.mpr ⟨_, hcapmem, hres⟩
    simp [breaksNow, hwhile, andOrStop, hor]

/-- Witness for the amended C4: no caller stoppers, cap at
`n_comps_terminate = 0`, first iteration. -/
theorem run_cap_stops_after_n_comps_terminate_witness :
    whileContinue (statesAfter (runStoppers ([] : List (Stopper ℕ)) 0) (fun _ => 0) 0)
      ((fun _ : ℕ => (0 : ℕ)) 0) = false ∧
    (((runStoppers ([] : List (Stopper ℕ)) 0).map Stopper.mode).getLast? = some "or" ∧
      breaksNow (statesAfter (runStoppers ([] : List (Stopper ℕ)) 0) (fun _ => 0) 0)
        ((fun _ : ℕ => (0 : ℕ)) 0) = true) :=
  ⟨by decide,
    run_cap_stops_after_n_comps_terminate [] 0 (fun _ => 0) 0 (Nat.le_refl 0) (by decide)⟩

/-- Helper: the filter walk never increases the index and decrements at
most once per candidate. -/
lemma filterWalk_bounds {M : Type} (filters : List (M → Bool)) (l : List M) :
    ∀ id_best : ℤ, id_best - l.length ≤ filterWalk filters l id_best ∧
      filterWalk filters l id_best ≤ id_best := by
  induction l with
  | nil => intro id_best; simp [filterWalk]
  | cons fn rest ih =>
    intro id_best
    simp only [filterWalk]
    split
    · have h := ih (id_best - 1)
      simp only [List.length_cons]
      constructor
      · have h1 := h.1
        push_cast at *
        omega
      · have h2 := h.2
        omega
    · refine ⟨?_, le_refl _⟩
      simp only [List.length_cons]
      push_cast
      omega

/-- Helper: when every candidate is rejected the walk decrements exactly
once per candidate. -/
lemma filterWalk_all_rejected {M : Type} (filters : List (M → Bool)) (l : List M)
    (h : ∀ fn ∈ l, filters.any (fun flt => flt fn) = true) :
    ∀ id_best : ℤ, filterWalk filters l id_best = id_best - l.length := by
  induction l with
  | nil => intro id_best; simp [filterWalk]
  | cons fn rest ih =>
    intro id_best
    simp only [filterWalk, h fn (List.mem_cons_self _ _), if_true]
    rw [ih (fun g hg => h g (List.mem_cons_of_mem _ hg))]
    simp only [List.length_cons]
    push_cast
    ring

/-- C3 counterexample: with the selector-chosen index 0 and a single
candidate model that every filter rejects (its one component has
negative flux, so `NegativeFluxComponentModelFilter` rejects it), the
backward walk decrements the index to -1: the final index is below 0,
and in Python `files[-1]` then denotes the last (most complex)
candidate, not the model at index 0. -/
theorem filter_walk_reaches_minus_one :
    filterWalk [negativeFluxModelFilter] ([[(-1 : ℚ)]].reverse) 0 = -1 ∧ (-1 : ℤ) < 0 :=
  ⟨by decide, by decide⟩

/-- C3 (amended): the backward filter walk terminates for every input
history, with final index between `start - (number of candidates)` and
`start`; but when every candidate model — including the one at index 0 —
is rejected by some filter, the walk started at index
`(number of candidates) - 1` finishes at index -1, one below 0 (the
driver then reads `files[-1]`, the most complex candidate, rather than
unconditionally accepting index 0). -/
theorem filter_walk_terminates_and_exhaustion
    {M : Type} (filters : List (M → Bool)) (files : List M)
    (hrej : ∀ fn ∈ files, filters.any (fun flt => flt fn) = true) :
    (∀ start : ℤ, start - files.length ≤ filterWalk filters files.reverse start ∧
      filterWalk filters files.reverse start ≤ start) ∧
    filterWalk filters files.reverse ((files.length : ℤ) - 1) = -1 := by
  constructor
  · intro start
    have h := filterWalk_bounds filters files.reverse start
    simpa using h
  · rw [filterWalk_all_rejected filters files.reverse
        (fun g hg => hrej g (List.mem_reverse.mp hg))]
    simp only [List.length_reverse]
    omega

/-- Witness for the amended C3 at the concrete one-candidate,
all-rejected history of the counterexample. -/
theorem filter_walk_terminates_and_exhaustion_witness :
    ((0 : ℤ) - (([[(-1 : ℚ)]] : List (List ℚ)).length : ℤ) ≤
        filterWalk [negativeFluxModelFilter] ([[(-1 : ℚ)]].reverse) 0 ∧
      filterWalk [negativeFluxModelFilter] ([[(-1 : ℚ)]].reverse) 0 ≤ 0) ∧
    filterWalk [negativeFluxModelFilter] ([[(-1 : ℚ)]].reverse)
      ((([[(-1 : ℚ)]] : List (List ℚ)).length : ℤ) - 1) = -1 :=
  ⟨(filter_walk_terminates_and_exhaustion _ _ (by decide)).1 0,
   (filter_walk_terminates_and_exhaustion _ _ (by decide)).2⟩

/-- C5 counterexample: on the flux history [10, 1] with
`frac_flux = 0.01` and `delta_flux = 0.001` the convergence mask has
exactly one true entry; the code path skips the morphological opening
and returns index 1, while the spec-described algorithm (opening always
applied before locating the first true entry) erases the lone true and
returns index 0. -/
theorem flux_selector_skips_opening_on_single_true :
    fluxBasedSelect 0.01 0.001 [10, 1] = 1 ∧
    fluxBasedSelectSpec 0.01 0.001 [10, 1] = 0 := by
  have h : fluxConvMask 0.01 0.001 [10, 1] = [false, true] := by norm_num [fluxConvMask]
  constructor
  · rw [fluxBasedSelect, h]; decide
  · rw [fluxBasedSelectSpec, h]; decide

/-- C5 (amended): both selectors return the position of the first true
entry of the width-2-opened convergence mask and fall back to index 0
when the opened mask has no true entry — except when the mask has
exactly one true entry, in which case the opening is skipped and the
index of that lone entry is returned directly (a single isolated
agreement is accepted as converged). -/
theorem selectors_apply_opening_unless_single_true
    (frac_flux delta_flux frac_size delta_size small_core : ℚ)
    (fluxes sizes : List ℚ) :
    ((fluxConvMask frac_flux delta_flux fluxes).count true ≠ 1 →
      fluxBasedSelect frac_flux delta_flux fluxes =
        fluxBasedSelectSpec frac_flux delta_flux fluxes) ∧
    ((fluxConvMask frac_flux delta_flux fluxes).count true = 1 →
      fluxBasedSelect frac_flux delta_flux fluxes =
        (fluxConvMask frac_flux delta_flux fluxes).indexOf true) ∧
    ((sizeConvMask frac_size delta_size small_core sizes).count true ≠ 1 →
      sizeBasedSelect frac_size delta_size small_core sizes =
        sizeBasedSelectSpec frac_size delta_size small_core sizes) ∧
    ((sizeConvMask frac_size delta_size small_core sizes).count true = 1 →
      sizeBasedSelect frac_size delta_size small_core sizes =
        (sizeConvMask frac_size delta_size small_core sizes).indexOf true) := by
  refine ⟨?_, ?_, ?_, ?_⟩ <;> intro h <;>
    simp [fluxBasedSelect, sizeBasedSelect, fluxBasedSelectSpec, sizeBasedSelectSpec,
      selectFromMask, selectFromMaskSpec, h]

/-- Witness for the amended C5, one concrete history per branch: mask
with two true entries (opening applied) and mask with a single true
entry (opening skipped), for each selector. -/
theorem selectors_apply_opening_unless_single_true_witness :
    ((fluxConvMask 0.01 0.001 [1, 5, 5]).count true ≠ 1 ∧
      fluxBasedSelect 0.01 0.001 [1, 5, 5] = fluxBasedSelectSpec 0.01 0.001 [1, 5, 5]) ∧
    ((fluxConvMask 0.01 0.001 [10, 1]).count true = 1 ∧
      fluxBasedSelect 0.01 0.001 [10, 1] = (fluxConvMask 0.01 0.001 [10, 1]).indexOf true) ∧
    ((sizeConvMask 0.01 0.001 0.001 [1, 5, 5]).count true ≠ 1 ∧
      sizeBasedSelect 0.01 0.001 0.001 [1, 5, 5] = sizeBasedSelectSpec 0.01 0.001 0.001 [1, 5, 5]) ∧
    ((sizeConvMask 0.01 0.001 0.001 [10, 1]).count true = 1 ∧
      sizeBasedSelect 0.01 0.001 0.001 [10, 1] = (sizeConvMask 0.01 0.001 0.001 [10, 1]).indexOf true) := by
  have hf1 : fluxConvMask 0.01 0.001 [1, 5, 5] = [false, true, true] := by norm_num [fluxConvMask]
  have hf2 : fluxConvMask 0.01 0.001 [10, 1] = [false, true] := by norm_num [fluxConvMask]
  have hs1 : sizeConvMask 0.01 0.001 0.001 [1, 5, 5] = [false, true, true] := by
    norm_num [sizeConvMask]
  have hs2 : sizeConvMask 0.01 0.001 0.001 [10, 1] = [false, true] := by
    norm_num [sizeConvMask]
  refine ⟨⟨?_, (selectors_apply_opening_unless_single_true 0.01 0.001 0.01 0.001 0.001
      [1, 5, 5] [1, 5, 5]).1 ?_⟩,
    ⟨?_, (selectors_apply_opening_unless_single_true 0.01 0.001 0.01 0.001 0.001
      [10, 1] [10, 1]).2.1 ?_⟩,
    ⟨?_, (selectors_apply_opening_unless_single_true 0.01 0.001 0.01 0.001 0.001
      [1, 5, 5] [1, 5, 5]).2.2.1 ?_⟩,
    ⟨?_, (selectors_apply_opening_unless_single_true 0.01 0.001 0.01 0.001 0.001
      [10, 1] [10, 1]).2.2.2 ?_⟩⟩
  · rw [hf1]; decide
  · rw [hf1]; decide
  · rw [hf2]; decide
  · rw [hf2]; decide
  · rw [hs1]; decide
  · rw [hs1]; decide
  · rw [hs2]; decide
  · rw [hs2]; decide

/-- Helper: `all` over a mapped list tests the composed predicate. -/
lemma list_all_map_comp {α β : Type} (f : α → β) (l : List α) (p : β → Bool) :
    (l.map f).all p = l.all (fun a => p (f a)) := by
  induction l with
  | nil => rfl
  | cons a t ih => simp [List.all_cons, ih]

/-- C6 counterexample: for `n_check = 2`, `frac_flux_min = 0.002`,
`delta_flux_min = delta_size_min = 0.001` and recorded core histories
`[(0,0), (10,10), (10.01,10.01)]`, the code's verdict is false — it
compares the two files preceding the newest against the second-newest
(flux 10, threshold 0.02, delta 10) — while the spec-described verdict
(last `n_check` files against the latest value 10.01, threshold 0.02002,
deltas 0.01 and 0) is true. -/
theorem nlast_check_baseline_is_second_newest :
    nLastDifferesFromLastCheck 2 0.002 0.001 0.001
      [⟨0, 0⟩, ⟨10, 10⟩, ⟨10.01, 10.01⟩] = false ∧
    nLastDifferesFromLastCheckSpec 2 0.002 0.001 0.001
      [⟨0, 0⟩, ⟨10, 10⟩, ⟨10.01, 10.01⟩] = true := by
  constructor
  · norm_num [nLastDifferesFromLastCheck]
  · have habs : |(1 : ℚ) / 100| < 1001 / 50000 := by
      rw [abs_of_nonneg (by norm_num)]
      norm_num
    norm_num [nLastDifferesFromLastCheckSpec]
    exact Or.inl habs

/-- C6 (amended): the compare-to-last windowed criterion is applicable
exactly when more than `n_check` files have been recorded, and its
verdict compares the core flux and size of the `n_check` files
immediately preceding the newest recorded file all against the
second-newest recorded file (index `length - 2`), with flux threshold
`max(delta_flux_min, frac_flux_min * that file's core flux)`; it is true
when all flux deltas are below the flux threshold or all size deltas are
below `delta_size_min`.  The newest file itself takes part only through
applicability, not in the comparison. -/
theorem nlast_differes_characterisation
    (n_check : ℕ) (frac_flux_min delta_flux_min delta_size_min : ℚ)
    (files : List CoreParams) (h : n_check < files.length) :
    (nLastIsApplicable n_check files = true ↔ n_check < files.length) ∧
    nLastDifferesFromLastCheck n_check frac_flux_min delta_flux_min delta_size_min files =
      (((List.range n_check).all (fun j =>
          decide (|(files.getD (files.length - 1 - n_check + j) ⟨0, 0⟩).flux -
            (files.getD (files.length - 2) ⟨0, 0⟩).flux| <
            max delta_flux_min
              ((files.getD (files.length - 2) ⟨0, 0⟩).flux * frac_flux_min)))) ||
        ((List.range n_check).all (fun j =>
          decide (|(files.getD (files.length - 1 - n_check + j) ⟨0, 0⟩).size -
            (files.getD (files.length - 2) ⟨0, 0⟩).size| < delta_size_min)))) := by
  refine ⟨by simp [nLastIsApplicable], ?_⟩
  rcases Nat.eq_zero_or_pos n_check with hn | hn
  · subst hn
    have hw : (files.drop (files.length - (0 + 1))).dropLast = [] := by
      apply List.eq_nil_of_length_eq_zero
      simp only [List.length_dropLast, List.length_drop]
      omega
    simp [nLastDifferesFromLastCheck, hw]
  · have hwin : (files.drop (files.length - (n_check + 1))).dropLast =
        (List.range n_check).map
          (fun j => files.getD (files.length - 1 - n_check + j) ⟨0, 0⟩) := by
      apply List.ext_getElem
      · simp only [List.length_dropLast, List.length_drop, List.length_map, List.length_range]
        omega
      · intro i h1 h2
        simp only [List.length_dropLast, List.length_drop] at h1
        rw [List.getElem_dropLast, List.getElem_drop]
        simp only [List.getElem_map, List.getElem_range]
        have hidx : files.length - 1 - n_check + i = files.length - (n_check + 1) + i := by
          omega
        rw [hidx, List.getD_eq_getElem]
    obtain ⟨m, rfl⟩ : ∃ m, n_check = m + 1 := ⟨n_check - 1, by omega⟩
    have hbase : ((List.range (m + 1)).map
          (fun j => files.getD (files.length - 1 - (m + 1) + j) ⟨0, 0⟩)).getLastD ⟨0, 0⟩ =
        files.getD (files.length - 2) ⟨0, 0⟩ := by
      rw [List.range_succ, List.map_append, List.map_cons, List.map_nil, List.getLastD_concat]
      have hidx : files.length - 1 - (m + 1) + m = files.length - 2 := by omega
      rw [hidx]
    simp only [nLastDifferesFromLastCheck, hwin, hbase, list_all_map_comp]

/-- Witness for the amended C6 at `n_check = 1` and the two-file core
history `[(1,1), (5,5)]`: the criterion is applicable and the verdict
(the single preceding file compared against itself) is true. -/
theorem nlast_differes_characterisation_witness :
    nLastIsApplicable 1 [(⟨1, 1⟩ : CoreParams), ⟨5, 5⟩] = true ∧
    nLastDifferesFromLastCheck 1 0.002 0.001 0.001 [⟨1, 1⟩, ⟨5, 5⟩] = true := by
  have h := nlast_differes_characterisation 1 0.002 0.001 0.001 [⟨1, 1⟩, ⟨5, 5⟩] (by decide)
  refine ⟨h.1.mpr (by decide), ?_⟩
  rw [h.2]
  norm_num [List.range_succ]

/-- Helper: the degrees-to-radians factor is nonzero. -/
lemma degree_to_rad_ne_zero : degree_to_rad ≠ 0 := by
  unfold degree_to_rad
  exact div_ne_zero Real.pi_ne_zero (by norm_num)

/-- Helper: converting an angle to degrees and back is the identity. -/
lemma degree_to_rad_cancel (t : ℝ) : degree_to_rad * (t / degree_to_rad) = t := by
  field_simp [degree_to_rad_ne_zero]

/-- Helper: polar-to-cartesian inversion for the x offset, over the
radius and angle written by the exporter: `-hypot(x, y) *
sin(arctan2(-x, -y)) = x`. -/
lemma neg_hypot_mul_sin_arctan2 (x y : ℝ) :
    -(Real.sqrt (x ^ 2 + y ^ 2) * Real.sin (arctan2 (-x) (-y))) = x := by
  unfold arctan2
  by_cases h : (⟨-y, -x⟩ : ℂ) = 0
  · have hx : x = 0 := by
      have := congrArg Complex.im h
      simpa using this
    have hy : y = 0 := by
      have := congrArg Complex.re h
      simpa using this
    simp [hx, hy]
  · have habs : Complex.abs ⟨-y, -x⟩ = Real.sqrt (x ^ 2 + y ^ 2) := by
      rw [Complex.abs_apply, Complex.normSq_mk]
      congr 1
      ring
    have hne : Real.sqrt (x ^ 2 + y ^ 2) ≠ 0 := by
      rw [← habs]
      exact Complex.abs.ne_zero h
    rw [Complex.sin_arg, habs]
    show -(Real.sqrt (x ^ 2 + y ^ 2) * (-x / Real.sqrt (x ^ 2 + y ^ 2))) = x
    field_simp

/-- Helper: polar-to-cartesian inversion for the y offset:
`-hypot(x, y) * cos(arctan2(-x, -y)) = y`. -/
lemma neg_hypot_mul_cos_arctan2 (x y : ℝ) :
    -(Real.sqrt (x ^ 2 + y ^ 2) * Real.cos (arctan2 (-x) (-y))) = y := by
  unfold arctan2
  by_cases h : (⟨-y, -x⟩ : ℂ) = 0
  · have hx : x = 0 := by
      have := congrArg Complex.im h
      simpa using this
    have hy : y = 0 := by
      have := congrArg Complex.re h
      simpa using this
    rw [h, Complex.arg_zero]
    simp [hx, hy]
  · have habs : Complex.abs ⟨-y, -x⟩ = Real.sqrt (x ^ 2 + y ^ 2) := by
      rw [Complex.abs_apply, Complex.normSq_mk]
      congr 1
      ring
    have hne : Real.sqrt (x ^ 2 + y ^ 2) ≠ 0 := by
      rw [← habs]
      exact Complex.abs.ne_zero h
    rw [Complex.cos_arg h, habs]
    show -(Real.sqrt (x ^ 2 + y ^ 2) * (-y / Real.sqrt (x ^ 2 + y ^ 2))) = y
    field_simp

/-- Helper: re-importing the exported record of one component yields a
component with identical flux, position and size (the elliptical
gaussian with axial ratio exactly 1 comes back as a circular gaussian,
with the same parameter quadruple). -/
lemma importLine_exportComponentLine (c : DifmapComponent) :
    (importLine (exportComponentLine c)).map componentParams = some (componentParams c) := by
  cases c with
  | delta flux x y =>
    simp [exportComponentLine, importLine, degree_to_rad_cancel,
      neg_hypot_mul_sin_arctan2, neg_hypot_mul_cos_arctan2, componentParams]
  | cg flux x y bmaj =>
    simp [exportComponentLine, importLine, degree_to_rad_cancel,
      neg_hypot_mul_sin_arctan2, neg_hypot_mul_cos_arctan2, componentParams]
  | eg flux x y bmaj e bpa =>
    by_cases he : e = 1
    · simp [exportComponentLine, importLine, degree_to_rad_cancel,
        neg_hypot_mul_sin_arctan2, neg_hypot_mul_cos_arctan2, componentParams, he]
    · simp [exportComponentLine, importLine, degree_to_rad_cancel,
        neg_hypot_mul_sin_arctan2, neg_hypot_mul_cos_arctan2, componentParams, he]

/-- C7: exporting any list of supported components with
`export_difmap_model` and re-importing with `import_difmap_model` yields
a component list of the same length whose flux, position (x, y) and size
equal the originals — exactly so in the real-valued model, which is
within the claim's 1e-6 relative tolerance (only the decimal rendering
of the text fields, abstracted here, adds rounding). -/
theorem export_import_difmap_roundtrip (comps : List DifmapComponent) :
    (import_difmap_model (export_difmap_model comps)).map
      (fun cs => cs.map componentParams) = some (comps.map componentParams) := by
  induction comps with
  | nil => rfl
  | cons c cs ih =>
    obtain ⟨c', hc'⟩ : ∃ c', importLine (exportComponentLine c) = some c' := by
      have h := importLine_exportComponentLine c
      cases him : importLine (exportComponentLine c) with
      | none => rw [him] at h; simp at h
      | some c' => exact ⟨c', rfl⟩
    have hcp : componentParams c' = componentParams c := by
      have h := importLine_exportComponentLine c
      rw [hc'] at h
      simpa using h
    obtain ⟨cs', hcs'⟩ : ∃ cs', import_difmap_model (export_difmap_model cs) = some cs' := by
      cases him : import_difmap_model (export_difmap_model cs) with
      | none => rw [him] at ih; simp at ih
      | some cs' => exact ⟨cs', rfl⟩
    have hcsp : cs'.map componentParams = cs.map componentParams := by
      rw [hcs'] at ih
      simpa using ih
    simp only [import_difmap_model, export_difmap_model, List.map_cons, List.mapM_cons]
    simp only [import_difmap_model, export_difmap_model] at hc' hcs'
    rw [hc', hcs']
    simp [hcp, hcsp]
